import Mathlib

/-!
Verification of the giiny IMVU push-messaging client.

This file shallowly embeds the parts of the repository that the checked
properties are about:

* `internal/imvu/websocket.go` — the connection state machine
  (`WebSocketClient`): `Close`, `Send`, `onMessage`, `onAuthenticated`,
  `reconnect`, `onDisconnected`, the timers and the reconnect-interval
  table.  Timers are modelled as booleans (armed / not armed), the socket
  handle as a boolean (present / nil), and every externally observable
  effect of a call (socket writes, consumer forwards, state-change hook
  invocations, log lines) is returned as an explicit event list.  Wall
  clock values (`lastMessageTime`, `time.Now()`) are not modelled; the
  `nextConnectTime` passed to the state hook is modelled as the chosen
  wait interval.  JSON wire messages are modelled post-decoding as
  association lists over the value fragment the client actually inspects
  (strings and integer numbers); a failed `json.Unmarshal` is modelled as
  `Option.none` input.
* the operation-ID generator (`OperationID.GetNew`): the mutex serializes
  the calls, so a run of concurrent calls is modelled as a sequence of
  calls; per the data model, 64-bit wraparound is out of scope and the
  counter is an unbounded `Int`.
* the chat-payload codec (`StringOrInt`, `ChatMessagePayload` with their
  `MarshalJSON`/`UnmarshalJSON`) — modelled at the byte level
  (`List Nat`), including standard base64 with padding and a JSON
  reader/writer for the fragment these payloads use (objects, arrays,
  strings with the common escapes, integer numbers, booleans, null);
  fractional and exponent number forms and `\u` escapes are outside the
  modelled fragment and make the reader fail, which the code surfaces as
  an `error` just as a real decode failure would.  A Go runtime panic
  (out-of-range slice bound) is modelled as `Option.none`.
-/

namespace Giiny

/-- Connection lifecycle states, from `State` in websocket.go. -/
inductive State where
  | closed
  | connecting
  | authenticating
  | authenticated
  | waiting
deriving DecidableEq, Repr

/-- The fragment of decoded JSON values (`map[string]any` entries) that the
state machine inspects: the `record` discriminator is asserted to `string`
and `status` to a number.  Numbers are modelled by their integer fragment. -/
inductive WireValue where
  | null
  | boolVal (b : Bool)
  | num (n : Int)
  | str (s : String)
deriving DecidableEq, Repr

/-- A decoded inbound or outbound record: `map[string]any` as an
association list. -/
abbrev WireMsg := List (String × WireValue)

/-- Externally observable effects of a state-machine call. -/
inductive Event where
  | log
  | stateChange (s : State) (nextConnectIn : Option Nat)
  | write (msg : WireMsg)
  | forward (msg : WireMsg)
deriving DecidableEq, Repr

/-- The mutable state of `WebSocketClient` relevant to the claims.  Timer
handles are booleans (armed or nil), the socket handle a boolean. -/
structure WSClient where
  state : State
  conn : Bool
  connectRetryTimer : Bool
  pingTimer : Bool
  serverTimeoutTimer : Bool
  connectRetryIntervalIndex : Nat
  reconnectIntervals : List Nat
deriving DecidableEq, Repr

/-- The default reconnect interval table installed by `NewWebSocketClient`
(5s, 15s, 45s, 90s, 180s), in seconds. -/
def defaultReconnectIntervals : List Nat := [5, 15, 45, 90, 180]

/-- `NewWebSocketClient`: defaults an empty interval table, starts with the
zero value of the struct (state Closed, index 0, no socket, no timers);
the initial `setState(StateClosed, nil)` is a no-op since the zero state
is already Closed. -/
def NewWebSocketClient (cfgIntervals : List Nat) : WSClient :=
  let intervals := if cfgIntervals = [] then defaultReconnectIntervals else cfgIntervals
  { state := .closed
    conn := false
    connectRetryTimer := false
    pingTimer := false
    serverTimeoutTimer := false
    connectRetryIntervalIndex := 0
    reconnectIntervals := intervals }

/-- `setState`: no-op when the state is unchanged; otherwise stores the new
state, logs, and invokes the `OnStateChange` hook. -/
def setState (c : WSClient) (s : State) (next : Option Nat) : WSClient × List Event :=
  if c.state = s then (c, [])
  else ({ c with state := s }, [.log, .stateChange s next])

/-- `reset`: zero the reconnect-interval index. -/
def reset (c : WSClient) : WSClient :=
  { c with connectRetryIntervalIndex := 0 }

/-- `clearConnectRetryTimer`: stop and drop the reconnect timer. -/
def clearConnectRetryTimer (c : WSClient) : WSClient :=
  { c with connectRetryTimer := false }

/-- `clearPingTimer`: stop and drop the ping timer. -/
def clearPingTimer (c : WSClient) : WSClient :=
  { c with pingTimer := false }

/-- `clearServerTimer`: stop and drop the server-timeout timer. -/
def clearServerTimer (c : WSClient) : WSClient :=
  { c with serverTimeoutTimer := false }

/-- `disconnect`: clear all three timers, close the `done` channel and the
socket, drop the socket handle. -/
def disconnect (c : WSClient) : WSClient :=
  let c := clearConnectRetryTimer c
  let c := clearPingTimer c
  let c := clearServerTimer c
  { c with conn := false }

/-- `Close`: log, then under the lock `reset`, `disconnect`, and set the
state to Closed. -/
def close (c : WSClient) : WSClient × List Event :=
  let c := reset c
  let c := disconnect c
  let p := setState c .closed none
  (p.1, .log :: p.2)

/-- `schedulePing`: stop any armed ping timer and arm a fresh one. -/
def schedulePing (c : WSClient) : WSClient :=
  { c with pingTimer := true }

/-- `scheduleServerTimeout`: stop any armed server-timeout timer and arm a
fresh one. -/
def scheduleServerTimeout (c : WSClient) : WSClient :=
  { c with serverTimeoutTimer := true }

/-- Go map assignment `payload[k] = v`: overwrite an existing binding or
add a new one. -/
def mapSet (m : WireMsg) (k : String) (v : WireValue) : WireMsg :=
  match m with
  | [] => [(k, v)]
  | (k', v') :: rest => if k' = k then (k, v) :: rest else (k', v') :: mapSet rest k v

/-- `sendRaw`: write the message to the socket if one is held, otherwise
only log. -/
def sendRaw (c : WSClient) (msg : WireMsg) : List Event :=
  if c.conn then [.write msg] else [.log]

/-- Internal `send` (lock held): outside Authenticated, log and return;
otherwise rearm the ping timer, merge the record type into the payload and
write it. -/
def send (c : WSClient) (record : String) (payload : WireMsg) : WSClient × List Event :=
  if c.state ≠ State.authenticated then (c, [.log])
  else
    let c := schedulePing c
    (c, sendRaw c (mapSet payload "record" (.str record)))

/-- Public `Send`: take the lock and call the internal `send`. -/
def Send (c : WSClient) (record : String) (payload : WireMsg) : WSClient × List Event :=
  send c record payload

/-- `sendOpenFloodgates`: send the floodgates-open control record with an
empty payload. -/
def sendOpenFloodgates (c : WSClient) : WSClient × List Event :=
  send c "msg_c2g_open_floodgates" []

/-- `onAuthenticated`: set state Authenticated and reset the
reconnect-interval index. -/
def onAuthenticated (c : WSClient) : WSClient × List Event :=
  let p := setState c .authenticated none
  (reset p.1, p.2)

/-- `reconnect` (lock held): read the interval table at the current index —
`none` models the index-out-of-range panic — log, move to Waiting exposing
the wait interval, arm the retry timer, then advance the index, wrapping
to 0 at the end of the table.  The chosen interval is returned last. -/
def reconnect (c : WSClient) : Option (WSClient × List Event × Nat) :=
  match c.reconnectIntervals.get? c.connectRetryIntervalIndex with
  | none => none
  | some interval =>
    let p := setState c .waiting (some interval)
    let c := { p.1 with connectRetryTimer := true }
    let nextIdx : Nat := c.connectRetryIntervalIndex + 1
    let nextIdx : Nat := if c.reconnectIntervals.length ≤ nextIdx then 0 else nextIdx
    some ({ c with connectRetryIntervalIndex := nextIdx }, .log :: p.2, interval)

/-- `onDisconnected`: under the lock, `disconnect`, log, and schedule a
retry via `reconnect`. -/
def onDisconnected (c : WSClient) : Option (WSClient × List Event × Nat) :=
  let c := disconnect c
  (reconnect c).map fun q => (q.1, .log :: q.2.1, q.2.2)

/-- `Connect`: only when Waiting or Closed, clear the pending retry timer
(and spawn `run`, modelled separately by `dialFailureStep`). -/
def Connect (c : WSClient) : WSClient :=
  if c.state = State.waiting ∨ c.state = State.closed then clearConnectRetryTimer c else c

/-- The dial-failure path of `run`: move to Connecting, then the dial error
is logged and `onDisconnected` runs.  (`run` re-checks the Waiting/Closed
guard first; callers of this definition establish it.) -/
def dialFailureStep (c : WSClient) : Option (WSClient × List Event × Nat) :=
  let p := setState c .connecting none
  (onDisconnected p.1).map fun q => (q.1, p.2 ++ .log :: q.2.1, q.2.2)

/-- `onMessage`: rearm the server-timeout timer, then decode.  `none` input
models a failed `json.Unmarshal` (dropped with a log).  A message whose
`record` entry is missing or not a string is dropped with a log.  While
Authenticating, a `msg_g2c_result` with numeric status 0 authenticates and
opens the floodgates, any other result tears the socket down (the
follow-up `go c.onDisconnected()` runs asynchronously and is composed
separately), and any other record type is dropped with a log.  In every
other state, everything except `msg_g2c_pong` is forwarded to the consumer
in a fresh goroutine. -/
def onMessage (c : WSClient) (data : Option WireMsg) : WSClient × List Event :=
  let c := scheduleServerTimeout c
  match data with
  | none => (c, [.log])
  | some msg =>
    match msg.lookup "record" with
    | some (.str msgType) =>
      if c.state = State.authenticating then
        if msgType = "msg_g2c_result" then
          match msg.lookup "status" with
          | some (.num 0) =>
            let p := onAuthenticated c
            let q := sendOpenFloodgates p.1
            (q.1, .log :: (p.2 ++ q.2))
          | _ => (disconnect c, [.log])
        else (c, [.log])
      else if msgType ≠ "msg_g2c_pong" then (c, [.forward msg])
      else (c, [])
    | _ => (c, [.log])

/-- Connection-cycle events that drive the reconnect-interval index: a dial
failure (`run` error path), a rejected authentication (`onMessage` failure
branch followed by its asynchronous `onDisconnected`), and a successful
authentication. -/
inductive ConnEvent where
  | dialFailure
  | authReject
  | authSuccess
deriving DecidableEq, Repr

/-- Effect of one connection-cycle event on the client, composed from the
embedded operations; `none` models a reconnect-table indexing panic. -/
def stepEvent (c : WSClient) : ConnEvent → Option WSClient
  | .dialFailure => (onDisconnected c).map (·.1)
  | .authReject => (onDisconnected (disconnect c)).map (·.1)
  | .authSuccess => some (onAuthenticated c).1

/-- Run a sequence of connection-cycle events. -/
def runEvents (c : WSClient) : List ConnEvent → Option WSClient
  | [] => some c
  | e :: es => (stepEvent c e).bind (fun d => runEvents d es)

/-!  The operation-ID generator (`OperationID` in imvu.go).  The embedded
`sync.Mutex` serializes `GetNew`, so any run of calls — concurrent callers
included — is a sequence of atomic increments; per the data model,
wraparound of the platform `int` is out of scope and the counter is an
unbounded `Int`. -/

/-- The generator state: the counter (`ID`); the mutex has no state beyond
serialization. -/
structure OperationID where
  ID : Int
deriving DecidableEq, Repr

/-- `GetNew`: under the mutex, return the current counter and increment
it. -/
def OperationID.GetNew (o : OperationID) : Int × OperationID :=
  (o.ID, { ID := o.ID + 1 })

/-- The operation IDs observed, in issuance order, by `n` serialized calls
to `GetNew` starting from generator state `o`. -/
def issueIDs (o : OperationID) : Nat → List Int
  | 0 => []
  | n + 1 =>
    let p := o.GetNew
    p.1 :: issueIDs p.2 n

/-!  The chat-payload codec (`StringOrInt` and `ChatMessagePayload` in
types.go).  Go strings and byte slices are byte sequences, modelled as
`List Nat`. -/

/-- A Go string / byte slice as its byte sequence. -/
abbrev GoStr := List Nat

/-- Bytes of an ASCII string literal. -/
def gostr (s : String) : GoStr := s.toList.map Char.toNat

/-- `StringOrInt`: a Go string that may have arrived as a JSON string or a
JSON number. -/
abbrev StringOrInt := GoStr

/-- Read a run of decimal digit bytes into an accumulator; `none` on any
non-digit byte. -/
def parseDigits (acc : Nat) : GoStr → Option Nat
  | [] => some acc
  | b :: rest => if 48 ≤ b ∧ b ≤ 57 then parseDigits (acc * 10 + (b - 48)) rest else none

/-- `strconv.ParseInt(s, 10, 64)`: optional sign, at least one digit, the
whole string, 64-bit signed range. -/
def parseInt64 (s : GoStr) : Option Int :=
  let p : Bool × GoStr :=
    match s with
    | 45 :: rest => (true, rest)
    | 43 :: rest => (false, rest)
    | _ => (false, s)
  match p.2 with
  | [] => none
  | _ =>
    match parseDigits 0 p.2 with
    | none => none
    | some n =>
      let v : Int := if p.1 then -(n : Int) else (n : Int)
      if -(2 ^ 63) ≤ v ∧ v ≤ 2 ^ 63 - 1 then some v else none

/-- Decimal digit bytes of a natural number (fuel-driven; any fuel above
the digit count gives the exact digits). -/
def natDecimalDigits (fuel : Nat) (n : Nat) : GoStr :=
  match fuel with
  | 0 => []
  | f + 1 => if n < 10 then [48 + n] else natDecimalDigits f (n / 10) ++ [48 + n % 10]

/-- `strconv.FormatInt(v, 10)` / JSON integer encoding. -/
def formatInt (v : Int) : GoStr :=
  if v < 0 then 45 :: natDecimalDigits (v.natAbs + 1) v.natAbs
  else natDecimalDigits (v.natAbs + 1) v.natAbs

/-- JSON string escaping of one byte as `encoding/json` emits it: the
short escapes, `\u` forms for the HTML-sensitive bytes and the remaining
control bytes, all other bytes verbatim. -/
def jsonEscapeByte (b : Nat) : GoStr :=
  let hexDigit : Nat → Nat := fun n => if n < 10 then 48 + n else 87 + (n - 10)
  if b = 34 then [92, 34]
  else if b = 92 then [92, 92]
  else if b = 10 then [92, 110]
  else if b = 13 then [92, 114]
  else if b = 9 then [92, 116]
  else if b = 60 ∨ b = 62 ∨ b = 38 ∨ b < 32 then
    [92, 117, 48, 48, hexDigit (b / 16), hexDigit (b % 16)]
  else [b]

/-- `json.Marshal` of a Go string: quoted, escaped. -/
def marshalGoString (s : GoStr) : GoStr :=
  34 :: ((s.map jsonEscapeByte).flatten ++ [34])

/-- `StringOrInt.MarshalJSON`: re-encode preferring the numeric form when
the value parses as a 64-bit integer, else the string form. -/
def StringOrInt.MarshalJSON (s : StringOrInt) : GoStr :=
  match parseInt64 s with
  | some i => formatInt i
  | none => marshalGoString s

/-- The inner chat payload struct. -/
structure ChatMessagePayload where
  ChatID : StringOrInt
  Message : GoStr
  To : StringOrInt
  UserID : StringOrInt
deriving DecidableEq, Repr

/-- `json.Marshal` of `chatMessageEncodedPayload` (the alias without the
custom marshaler): whitespace-free object, fields in declaration order,
keys from the struct tags. -/
def chatMessageEncodedPayloadMarshal (p : ChatMessagePayload) : GoStr :=
  [123] ++ marshalGoString (gostr "chatId") ++ [58] ++ StringOrInt.MarshalJSON p.ChatID
    ++ [44] ++ marshalGoString (gostr "message") ++ [58] ++ marshalGoString p.Message
    ++ [44] ++ marshalGoString (gostr "to") ++ [58] ++ StringOrInt.MarshalJSON p.To
    ++ [44] ++ marshalGoString (gostr "userId") ++ [58] ++ StringOrInt.MarshalJSON p.UserID
    ++ [125]

/-- The standard base64 alphabet. -/
def base64Alphabet : GoStr :=
  gostr "ABCDEFGHIJKLMNOPQRSTUVWXYZabcdefghijklmnopqrstuvwxyz0123456789+/"

/-- Alphabet character for a 6-bit group. -/
def b64Char (n : Nat) : Nat := base64Alphabet.getD n 65

/-- `base64.StdEncoding.EncodeToString`: 3-byte groups to 4 characters,
`=`-padded tail. -/
def base64Encode : GoStr → GoStr
  | [] => []
  | [a] =>
    let n := a * 65536
    [b64Char (n / 262144 % 64), b64Char (n / 4096 % 64), 61, 61]
  | [a, b] =>
    let n := a * 65536 + b * 256
    [b64Char (n / 262144 % 64), b64Char (n / 4096 % 64), b64Char (n / 64 % 64), 61]
  | a :: b :: c :: rest =>
    let n := a * 65536 + b * 256 + c
    b64Char (n / 262144 % 64) :: b64Char (n / 4096 % 64) :: b64Char (n / 64 % 64)
      :: b64Char (n % 64) :: base64Encode rest

/-- 6-bit value of a base64 alphabet character; `none` for anything
else. -/
def b64Val (c : Nat) : Option Nat :=
  if 65 ≤ c ∧ c ≤ 90 then some (c - 65)
  else if 97 ≤ c ∧ c ≤ 122 then some (c - 97 + 26)
  else if 48 ≤ c ∧ c ≤ 57 then some (c - 48 + 52)
  else if c = 43 then some 62
  else if c = 47 then some 63
  else none

/-- `base64.StdEncoding.DecodeString`: padded 4-character groups, padding
only in the final group; `none` models the decode error. -/
def base64Decode : GoStr → Option GoStr
  | [] => some []
  | [a, b, 61, 61] => do
    let va ← b64Val a
    let vb ← b64Val b
    some [va * 4 + vb / 16]
  | [a, b, c, 61] => do
    let va ← b64Val a
    let vb ← b64Val b
    let vc ← b64Val c
    some [va * 4 + vb / 16, vb % 16 * 16 + vc / 4]
  | a :: b :: c :: d :: rest => do
    let va ← b64Val a
    let vb ← b64Val b
    let vc ← b64Val c
    let vd ← b64Val d
    let tail ← base64Decode rest
    some ((va * 4 + vb / 16) :: (vb % 16 * 16 + vc / 4) :: (vc % 4 * 64 + vd) :: tail)
  | _ => none

/-- `ChatMessagePayload.MarshalJSON`: inner JSON, base64, wrapped in
quotes as a JSON string. -/
def ChatMessagePayload.MarshalJSON (p : ChatMessagePayload) : GoStr :=
  let payloadJSON := chatMessageEncodedPayloadMarshal p
  let base64String := base64Encode payloadJSON
  34 :: (base64String ++ [34])

/-- JSON values, for the fragment `json.Unmarshal` meets in these
payloads (numbers restricted to integers). -/
inductive Json where
  | null
  | boolVal (b : Bool)
  | intVal (n : Int)
  | strVal (s : GoStr)
  | arrVal (xs : List Json)
  | objVal (fields : List (GoStr × Json))

/-- Skip JSON whitespace bytes. -/
def skipWs : GoStr → GoStr
  | [] => []
  | b :: rest => if b = 32 ∨ b = 9 ∨ b = 10 ∨ b = 13 then skipWs rest else b :: rest

/-- Read a JSON string body after the opening quote: the unescaped
content and the remainder after the closing quote.  `\u` escapes are
outside the modelled fragment and fail. -/
def readStringBody : GoStr → Option (GoStr × GoStr)
  | [] => none
  | 34 :: rest => some ([], rest)
  | 92 :: e :: rest =>
    let c? : Option Nat :=
      if e = 34 then some 34
      else if e = 92 then some 92
      else if e = 47 then some 47
      else if e = 98 then some 8
      else if e = 102 then some 12
      else if e = 110 then some 10
      else if e = 114 then some 13
      else if e = 116 then some 9
      else none
    match c? with
    | none => none
    | some c =>
      match readStringBody rest with
      | none => none
      | some (content, rest') => some (c :: content, rest')
  | [92] => none
  | b :: rest =>
    match readStringBody rest with
    | none => none
    | some (content, rest') => some (b :: content, rest')

/-- Split a leading run of decimal digit bytes. -/
def takeDigits : GoStr → GoStr × GoStr
  | [] => ([], [])
  | b :: rest =>
    if 48 ≤ b ∧ b ≤ 57 then
      let p := takeDigits rest
      (b :: p.1, p.2)
    else ([], b :: rest)

/-- Read a JSON number: optional minus, digits without a redundant leading
zero; fractional and exponent forms are outside the modelled integer
fragment and fail. -/
def readNumber (s : GoStr) : Option (Json × GoStr) :=
  let p : Bool × GoStr :=
    match s with
    | 45 :: rest => (true, rest)
    | _ => (false, s)
  match takeDigits p.2 with
  | ([], _) => none
  | (ds, rest) =>
    if 2 ≤ ds.length ∧ ds.headD 0 = 48 then none
    else
      match rest with
      | 46 :: _ => none
      | 101 :: _ => none
      | 69 :: _ => none
      | _ =>
        match parseDigits 0 ds with
        | none => none
        | some n => some (.intVal (if p.1 then -(n : Int) else (n : Int)), rest)

mutual

/-- Recursive-descent JSON reader (fuel-driven; `jsonParse` supplies
enough fuel for any input). -/
def readValue : Nat → GoStr → Option (Json × GoStr)
  | 0, _ => none
  | fuel + 1, s =>
    match skipWs s with
    | 110 :: 117 :: 108 :: 108 :: rest => some (.null, rest)
    | 116 :: 114 :: 117 :: 101 :: rest => some (.boolVal true, rest)
    | 102 :: 97 :: 108 :: 115 :: 101 :: rest => some (.boolVal false, rest)
    | 34 :: rest =>
      match readStringBody rest with
      | none => none
      | some (content, rest') => some (.strVal content, rest')
    | 91 :: rest =>
      match skipWs rest with
      | 93 :: rest' => some (.arrVal [], rest')
      | rest' => readArrItems fuel rest' []
    | 123 :: rest =>
      match skipWs rest with
      | 125 :: rest' => some (.objVal [], rest')
      | rest' => readObjItems fuel rest' []
    | rest => readNumber rest

/-- Array items after `[`, accumulating in order. -/
def readArrItems : Nat → GoStr → List Json → Option (Json × GoStr)
  | 0, _, _ => none
  | fuel + 1, s, acc =>
    match readValue fuel s with
    | none => none
    | some (v, rest) =>
      match skipWs rest with
      | 44 :: rest' => readArrItems fuel rest' (acc ++ [v])
      | 93 :: rest' => some (.arrVal (acc ++ [v]), rest')
      | _ => none

/-- Object members after an opening brace, accumulating in order. -/
def readObjItems : Nat → GoStr → List (GoStr × Json) → Option (Json × GoStr)
  | 0, _, _ => none
  | fuel + 1, s, acc =>
    match skipWs s with
    | 34 :: rest =>
      match readStringBody rest with
      | none => none
      | some (key, rest') =>
        match skipWs rest' with
        | 58 :: rest'' =>
          match readValue fuel rest'' with
          | none => none
          | some (v, rest3) =>
            match skipWs rest3 with
            | 44 :: rest4 => readObjItems fuel rest4 (acc ++ [(key, v)])
            | 125 :: rest4 => some (.objVal (acc ++ [(key, v)]), rest4)
            | _ => none
        | _ => none
    | _ => none

end

/-- Whole-input JSON decode, as `json.Unmarshal` requires: one value, then
only trailing whitespace. -/
def jsonParse (s : GoStr) : Option Json :=
  match readValue (s.length + 1) s with
  | none => none
  | some (v, rest) => if skipWs rest = [] then some v else none

/-- Go `json` object field lookup: with duplicate keys the later entry
overwrites, so the last match wins. -/
def jsonLookupLast : List (GoStr × Json) → GoStr → Option Json
  | [], _ => none
  | (k', v) :: rest, k =>
    match jsonLookupLast rest k with
    | some r => some r
    | none => if k' = k then some v else none

/-- `StringOrInt.UnmarshalJSON`: first try a string, then a 64-bit
integer (normalized to its decimal string), otherwise the error. -/
def StringOrInt.UnmarshalJSON : Json → Except String StringOrInt
  | .strVal s => .ok s
  | .intVal n =>
    if -(2 ^ 63) ≤ n ∧ n ≤ 2 ^ 63 - 1 then .ok (formatInt n)
    else .error "value must be a string or an integer"
  | _ => .error "value must be a string or an integer"

/-- `json.Unmarshal` of the decoded inner bytes into
`chatMessageEncodedPayload`: the value must be an object; known fields
decode by their tag (absent fields keep the zero value, unknown fields are
ignored), the `StringOrInt` fields through `StringOrInt.UnmarshalJSON` and
`message` as a plain string. -/
def chatMessageEncodedPayloadUnmarshal (data : GoStr) : Except String ChatMessagePayload :=
  match jsonParse data with
  | some (.objVal fields) =>
    let bindSOI : String → Except String StringOrInt := fun k =>
      match jsonLookupLast fields (gostr k) with
      | none => .ok []
      | some v => StringOrInt.UnmarshalJSON v
    let bindStr : String → Except String GoStr := fun k =>
      match jsonLookupLast fields (gostr k) with
      | none => .ok []
      | some (.strVal s) => .ok s
      | some _ => .error "failed to unmarshal decoded JSON payload"
    do
      let chatId ← bindSOI "chatId"
      let message ← bindStr "message"
      let toV ← bindSOI "to"
      let userId ← bindSOI "userId"
      .ok { ChatID := chatId, Message := message, To := toV, UserID := userId }
  | _ => .error "failed to unmarshal decoded JSON payload"

/-- Go slice expression `l[lo:hi]`: `none` models the slice-bounds
panic. -/
def goSlice (l : GoStr) (lo hi : Int) : Option GoStr :=
  if 0 ≤ lo ∧ lo ≤ hi ∧ hi ≤ (l.length : Int) then
    some ((l.drop lo.toNat).take (hi - lo).toNat)
  else none

/-- `ChatMessagePayload.UnmarshalJSON`: strip the first and last byte of
the raw value without a length check (`data[1 : len(data)-1]`, whose
out-of-range panic is the outer `none`), base64-decode, then decode the
inner JSON. -/
def ChatMessagePayload.UnmarshalJSON (data : GoStr) :
    Option (Except String ChatMessagePayload) :=
  match goSlice data 1 ((data.length : Int) - 1) with
  | none => none
  | some dataStr =>
    some
      (match base64Decode dataStr with
      | none => .error "failed to decode base64 string"
      | some decodedJSON => chatMessageEncodedPayloadUnmarshal decodedJSON)

/-!  Concrete client states used by witnesses and counterexamples. -/

/-- A client mid-handshake: socket open, server-timeout timer armed, some
failed attempts already accumulated on the backoff index. -/
def authgClient : WSClient :=
  { state := .authenticating
    conn := true
    connectRetryTimer := false
    pingTimer := false
    serverTimeoutTimer := true
    connectRetryIntervalIndex := 3
    reconnectIntervals := defaultReconnectIntervals }

/-- A fully authenticated client with a live socket. -/
def authedClient : WSClient :=
  { state := .authenticated
    conn := true
    connectRetryTimer := false
    pingTimer := true
    serverTimeoutTimer := true
    connectRetryIntervalIndex := 0
    reconnectIntervals := defaultReconnectIntervals }

/-- A successful authentication result record. -/
def authResultMsg : WireMsg :=
  [("record", .str "msg_g2c_result"), ("status", .num 0)]

/-- A pong record. -/
def pongMsg : WireMsg :=
  [("record", .str "msg_g2c_pong")]

/-- A record whose `record` field is present but not a string. -/
def numRecordMsg : WireMsg :=
  [("record", .num 7)]

/-- A client parked between reconnect attempts. -/
def waitingClient : WSClient :=
  { state := .waiting
    conn := false
    connectRetryTimer := true
    pingTimer := false
    serverTimeoutTimer := false
    connectRetryIntervalIndex := 2
    reconnectIntervals := defaultReconnectIntervals }

/-- The chat payload named by the round-trip property. -/
def samplePayload : ChatMessagePayload :=
  { ChatID := gostr "140", Message := gostr "hi", To := gostr "0", UserID := gostr "12345" }

/-- The messages forwarded to the consumer (`go OnMessage(msg)`) within an
event list. -/
def forwards (evs : List Event) : List WireMsg :=
  evs.filterMap fun e =>
    match e with
    | .forward m => some m
    | _ => none

/-!  Helper lemmas about the embedded operations. -/

lemma setState_state (c : WSClient) (s : State) (next : Option Nat) :
    (setState c s next).1.state = s := by
  unfold setState; split <;> simp_all

lemma setState_fields (c : WSClient) (s : State) (next : Option Nat) :
    (setState c s next).1.conn = c.conn ∧
    (setState c s next).1.connectRetryTimer = c.connectRetryTimer ∧
    (setState c s next).1.pingTimer = c.pingTimer ∧
    (setState c s next).1.serverTimeoutTimer = c.serverTimeoutTimer ∧
    (setState c s next).1.connectRetryIntervalIndex = c.connectRetryIntervalIndex ∧
    (setState c s next).1.reconnectIntervals = c.reconnectIntervals := by
  unfold setState; split <;> simp_all

/-- Reconnect-index invariant: the index is a valid position in the
interval table. -/
def IndexInv (c : WSClient) : Prop :=
  c.connectRetryIntervalIndex < c.reconnectIntervals.length

lemma reconnect_of_indexInv {c : WSClient} (h : IndexInv c) :
    ∃ d ev i, reconnect c = some (d, ev, i) ∧
      IndexInv d ∧ d.reconnectIntervals = c.reconnectIntervals ∧
      d.connectRetryTimer = true ∧ d.state = .waiting ∧
      c.reconnectIntervals.get? c.connectRetryIntervalIndex = some i := by
  obtain ⟨i, hi⟩ : ∃ i, c.reconnectIntervals.get? c.connectRetryIntervalIndex = some i :=
    ⟨_, List.get?_eq_get h⟩
  have hf := setState_fields c .waiting (some i)
  unfold reconnect
  rw [hi]
  refine ⟨_, _, i, rfl, ?_, ?_, ?_, ?_, rfl⟩
  · simp only [IndexInv] at h ⊢
    simp only [hf.2.2.2.2.1, hf.2.2.2.2.2]
    split <;> omega
  · exact hf.2.2.2.2.2
  · rfl
  · exact setState_state c .waiting (some i)

lemma disconnect_fields (c : WSClient) :
    (disconnect c).state = c.state ∧ (disconnect c).conn = false ∧
    (disconnect c).connectRetryTimer = false ∧ (disconnect c).pingTimer = false ∧
    (disconnect c).serverTimeoutTimer = false ∧
    (disconnect c).connectRetryIntervalIndex = c.connectRetryIntervalIndex ∧
    (disconnect c).reconnectIntervals = c.reconnectIntervals := by
  simp [disconnect, clearConnectRetryTimer, clearPingTimer, clearServerTimer]

lemma onDisconnected_of_indexInv {c : WSClient} (h : IndexInv c) :
    ∃ d ev i, onDisconnected c = some (d, ev, i) ∧
      IndexInv d ∧ d.reconnectIntervals = c.reconnectIntervals ∧
      d.connectRetryTimer = true ∧ d.state = .waiting ∧
      c.reconnectIntervals.get? c.connectRetryIntervalIndex = some i := by
  have hd : IndexInv (disconnect c) := by
    simp only [IndexInv, (disconnect_fields c).2.2.2.2.2.1, (disconnect_fields c).2.2.2.2.2.2]
    exact h
  obtain ⟨d, ev, i, hrec, hinv, hints, htimer, hstate, hget⟩ := reconnect_of_indexInv hd
  refine ⟨d, .log :: ev, i, ?_, hinv, ?_, htimer, hstate, ?_⟩
  · show ((reconnect (disconnect c)).map fun q => (q.1, Event.log :: q.2.1, q.2.2))
      = some (d, Event.log :: ev, i)
    rw [hrec]
    rfl
  · rw [hints, (disconnect_fields c).2.2.2.2.2.2]
  · rw [← (disconnect_fields c).2.2.2.2.2.1, ← (disconnect_fields c).2.2.2.2.2.2]
    exact hget

lemma onAuthenticated_fields (c : WSClient) :
    (onAuthenticated c).1.state = .authenticated ∧
    (onAuthenticated c).1.connectRetryIntervalIndex = 0 ∧
    (onAuthenticated c).1.reconnectIntervals = c.reconnectIntervals := by
  unfold onAuthenticated reset
  refine ⟨?_, rfl, ?_⟩
  · simp [setState_state c .authenticated none]
  · simp [(setState_fields c .authenticated none).2.2.2.2.2]

lemma stepEvent_of_indexInv {c : WSClient} (h : IndexInv c) (e : ConnEvent) :
    ∃ d, stepEvent c e = some d ∧ IndexInv d ∧
      d.reconnectIntervals = c.reconnectIntervals ∧
      (e = .authSuccess → d.connectRetryIntervalIndex = 0) := by
  cases e with
  | dialFailure =>
    obtain ⟨d, ev, i, hod, hinv, hints, -, -, -⟩ := onDisconnected_of_indexInv h
    exact ⟨d, by simp [stepEvent, hod], hinv, hints, by simp⟩
  | authReject =>
    have h2 : IndexInv (disconnect c) := by
      simp only [IndexInv, (disconnect_fields c).2.2.2.2.2.1, (disconnect_fields c).2.2.2.2.2.2]
      exact h
    obtain ⟨d, ev, i, hod, hinv, hints, -, -, -⟩ := onDisconnected_of_indexInv h2
    refine ⟨d, by simp [stepEvent, hod], hinv, ?_, by simp⟩
    rw [hints, (disconnect_fields c).2.2.2.2.2.2]
  | authSuccess =>
    refine ⟨(onAuthenticated c).1, rfl, ?_, (onAuthenticated_fields c).2.2, fun _ => (onAuthenticated_fields c).2.1⟩
    simp only [IndexInv, (onAuthenticated_fields c).2.1, (onAuthenticated_fields c).2.2]
    exact Nat.lt_of_le_of_lt (Nat.zero_le _) h

lemma runEvents_of_indexInv {c : WSClient} (h : IndexInv c) (es : List ConnEvent) :
    ∃ d, runEvents c es = some d ∧ IndexInv d ∧
      d.reconnectIntervals = c.reconnectIntervals := by
  induction es generalizing c with
  | nil => exact ⟨c, rfl, h, rfl⟩
  | cons e es ih =>
    obtain ⟨d, hd, hinv, hints, -⟩ := stepEvent_of_indexInv h e
    obtain ⟨d', hd', hinv', hints'⟩ := ih hinv
    exact ⟨d', by simp [runEvents, hd, hd'], hinv', by rw [hints', hints]⟩

lemma runEvents_append (c : WSClient) (es1 es2 : List ConnEvent) :
    runEvents c (es1 ++ es2) = (runEvents c es1).bind (fun d => runEvents d es2) := by
  induction es1 generalizing c with
  | nil => simp [runEvents]
  | cons e es ih =>
    simp only [List.cons_append, runEvents]
    cases stepEvent c e with
    | none => simp
    | some d => simp [ih d]

lemma close_fst (c : WSClient) :
    (close c).1 =
      { state := .closed, conn := false, connectRetryTimer := false, pingTimer := false,
        serverTimeoutTimer := false, connectRetryIntervalIndex := 0,
        reconnectIntervals := c.reconnectIntervals } := by
  obtain ⟨st, cn, rt, pt, stt, idx, ints⟩ := c
  simp only [close, reset, disconnect, clearConnectRetryTimer, clearPingTimer, clearServerTimer,
    setState]
  split <;> simp_all

lemma close_snd (c : WSClient) :
    (close c).2 = [Event.log] ∨
    (close c).2 = [Event.log, Event.log, Event.stateChange .closed none] := by
  obtain ⟨st, cn, rt, pt, stt, idx, ints⟩ := c
  simp only [close, reset, disconnect, clearConnectRetryTimer, clearPingTimer, clearServerTimer,
    setState]
  split
  · exact Or.inl rfl
  · exact Or.inr rfl

lemma reconnect_arms_retry {c : WSClient} {q : WSClient × List Event × Nat}
    (h : reconnect c = some q) : q.1.connectRetryTimer = true := by
  unfold reconnect at h
  cases hg : c.reconnectIntervals.get? c.connectRetryIntervalIndex with
  | none => rw [hg] at h; exact absurd h (by simp)
  | some i =>
    rw [hg] at h
    simp only [Option.some.injEq] at h
    rw [← h]

lemma onDisconnected_arms_retry {d : WSClient} {q : WSClient × List Event × Nat}
    (h : onDisconnected d = some q) : q.1.connectRetryTimer = true := by
  replace h : ((reconnect (disconnect d)).map fun r => (r.1, Event.log :: r.2.1, r.2.2)) = some q := h
  cases hrec : reconnect (disconnect d) with
  | none => rw [hrec] at h; exact absurd h (by simp)
  | some r =>
    rw [hrec] at h
    simp only [Option.map_some', Option.some.injEq] at h
    rw [← h]
    exact @reconnect_arms_retry (disconnect d) r hrec

lemma issueIDs_get (o : OperationID) (n i : Nat) (h : i < n) :
    (issueIDs o n).get? i = some (o.ID + i) := by
  induction n generalizing o i with
  | zero => exact absurd h (Nat.not_lt_zero i)
  | succ n ih =>
    cases i with
    | zero => simp [issueIDs, OperationID.GetNew]
    | succ i =>
      have h' : i < n := Nat.lt_of_succ_lt_succ h
      have hrec := ih { ID := o.ID + 1 } i h'
      simp only [issueIDs, OperationID.GetNew, List.get?] at hrec ⊢
      rw [hrec]
      congr 1
      push_cast
      ring

lemma forwards_log_cons (evs : List Event) : forwards (Event.log :: evs) = forwards evs := rfl

lemma forwards_append (a b : List Event) : forwards (a ++ b) = forwards a ++ forwards b := by
  simp [forwards]

lemma forwards_setState (c : WSClient) (s : State) (next : Option Nat) :
    forwards (setState c s next).2 = [] := by
  unfold setState
  split <;> rfl

lemma forwards_onAuthenticated (c : WSClient) : forwards (onAuthenticated c).2 = [] :=
  forwards_setState c .authenticated none

lemma forwards_send (c : WSClient) (r : String) (p : WireMsg) :
    forwards (send c r p).2 = [] := by
  unfold send sendRaw
  split
  · rfl
  · dsimp only
    split <;> rfl

lemma forwards_sendOpenFloodgates (c : WSClient) :
    forwards (sendOpenFloodgates c).2 = [] :=
  forwards_send c "msg_c2g_open_floodgates" []

/-- C1: over every sequence of dial failures, rejected authentications and
successful authentications run against a freshly built client, the
reconnect-schedule index stays strictly below the length of the
reconnect-interval table — so `reconnect`'s indexing of the table never
goes out of range and the run never panics — and the index is 0
immediately after the first successful authentication following any number
of prior failures. -/
theorem reconnectIndex_bounded_and_resets_on_auth (cfg : List Nat) (es : List ConnEvent) :
    (∃ c, runEvents (NewWebSocketClient cfg) es = some c ∧
      c.connectRetryIntervalIndex < c.reconnectIntervals.length) ∧
    ∃ c', runEvents (NewWebSocketClient cfg) (es ++ [ConnEvent.authSuccess]) = some c' ∧
      c'.connectRetryIntervalIndex = 0 := by
  have h0 : IndexInv (NewWebSocketClient cfg) := by
    simp only [IndexInv, NewWebSocketClient]
    cases cfg <;> simp [defaultReconnectIntervals]
  obtain ⟨c, hc, hinv, -⟩ := runEvents_of_indexInv h0 es
  refine ⟨⟨c, hc, hinv⟩, ?_⟩
  obtain ⟨c', hc', -, -, himp⟩ := stepEvent_of_indexInv hinv ConnEvent.authSuccess
  refine ⟨c', ?_, himp rfl⟩
  rw [runEvents_append, hc]
  simp [runEvents, hc']

/-- C5: `Close` is idempotent — a second `Close` leaves the client exactly
as the first left it: state Closed, no socket, no ping, server-timeout or
reconnect timer armed, and no error (the operation is total).  `Close`
never schedules a reconnect — it arms no retry timer and every state
change it reports is to Closed — while every other teardown path
(`onDisconnected`) always arms one. -/
theorem Close_idempotent_teardown (c : WSClient) :
    (close (close c).1).1 = (close c).1 ∧
    (close c).1.state = .closed ∧
    (close c).1.conn = false ∧
    (close c).1.pingTimer = false ∧
    (close c).1.serverTimeoutTimer = false ∧
    (close c).1.connectRetryTimer = false ∧
    (∀ s next, Event.stateChange s next ∈ (close c).2 → s = State.closed) ∧
    (∀ d q, onDisconnected d = some q → q.1.connectRetryTimer = true) := by
  refine ⟨?_, ?_, ?_, ?_, ?_, ?_, ?_, fun d q h => onDisconnected_arms_retry h⟩
  · rw [close_fst c, close_fst]
  · rw [close_fst c]
  · rw [close_fst c]
  · rw [close_fst c]
  · rw [close_fst c]
  · rw [close_fst c]
  · intro s next hmem
    rcases close_snd c with h2 | h2 <;> rw [h2] at hmem <;> simp at hmem
    exact hmem.1

/-- Witness for C5 at a concrete authenticated client: the second `Close`
reproduces the first's end state, the only state change reported by
`Close` is to Closed, and the non-`Close` teardown path arms the retry
timer. -/
theorem Close_idempotent_teardown_witness :
    (close (close authedClient).1).1 = (close authedClient).1 ∧
    State.closed = State.closed ∧
    ((onDisconnected waitingClient).map fun q => q.1.connectRetryTimer) = some true := by
  have h := Close_idempotent_teardown authedClient
  refine ⟨h.1, h.2.2.2.2.2.2.1 State.closed none (by decide), ?_⟩
  have hod : onDisconnected waitingClient =
      some ({ state := .waiting, conn := false, connectRetryTimer := true, pingTimer := false,
              serverTimeoutTimer := false, connectRetryIntervalIndex := 3,
              reconnectIntervals := defaultReconnectIntervals },
            [Event.log, Event.log], 45) := by
    decide
  rw [hod]
  exact congrArg some (h.2.2.2.2.2.2.2 waitingClient _ hod)

/-- C9: `Close` resets the reconnect backoff index to 0 (beyond clearing
the timers), so after a `Close` followed by `Connect`, a first failed dial
attempt schedules its retry after the first interval of the table — even
when the index had been advanced before the `Close`. -/
theorem Close_resets_backoff_index (c : WSClient) (h : 0 < c.reconnectIntervals.length) :
    (close c).1.connectRetryIntervalIndex = 0 ∧
    (close c).1.connectRetryTimer = false ∧
    (close c).1.pingTimer = false ∧
    (close c).1.serverTimeoutTimer = false ∧
    ∃ q, dialFailureStep (Connect (close c).1) = some q ∧
      q.2.2 = c.reconnectIntervals.headD 0 ∧ q.1.state = .waiting := by
  obtain ⟨a, t, hat⟩ : ∃ a t, c.reconnectIntervals = a :: t := by
    cases hl : c.reconnectIntervals with
    | nil => rw [hl] at h; exact absurd h (by simp)
    | cons a t => exact ⟨a, t, rfl⟩
  rw [close_fst c, hat]
  exact ⟨rfl, rfl, rfl, rfl, _, rfl, rfl, rfl⟩

/-- Witness for C9 at a concrete client whose backoff index had advanced:
after `Close` then `Connect`, a failed dial waits the first interval, 5
seconds. -/
theorem Close_resets_backoff_index_witness :
    (close waitingClient).1.connectRetryIntervalIndex = 0 ∧
    ((dialFailureStep (Connect (close waitingClient).1)).map fun q => q.2.2) = some 5 := by
  have h := Close_resets_backoff_index waitingClient (by decide)
  obtain ⟨q, hq, hi, -⟩ := h.2.2.2.2
  refine ⟨h.1, ?_⟩
  rw [hq, Option.map_some', hi]
  rfl

/-- C3: `Send` called while the state is Connecting, Authenticating,
Closed or Waiting performs no socket write and does not crash — the call
only logs and leaves the client untouched, raising no error; while
Authenticated (with the socket the state implies), it merges the record
type into the payload, writes the message, and rearms the heartbeat ping
timer. -/
theorem Send_silent_unless_authenticated (c : WSClient) (r : String) (p : WireMsg) :
    (c.state = .connecting ∨ c.state = .authenticating ∨ c.state = .closed ∨
        c.state = .waiting →
      Send c r p = (c, [Event.log])) ∧
    (c.state = .authenticated → c.conn = true →
      Send c r p = (schedulePing c, [Event.write (mapSet p "record" (.str r))]) ∧
        (schedulePing c).pingTimer = true) := by
  constructor
  · intro h
    have hne : c.state ≠ State.authenticated := by
      rcases h with h | h | h | h <;> simp [h]
    simp [Send, send, hne]
  · intro h hc
    refine ⟨?_, rfl⟩
    simp [Send, send, h, sendRaw, schedulePing, hc]

/-- Witness for C3: in Waiting the call only logs; in Authenticated the
ping record is written with the record type merged in and the ping timer
rearmed. -/
theorem Send_silent_unless_authenticated_witness :
    Send waitingClient "msg_c2g_ping" [] = (waitingClient, [Event.log]) ∧
    Send authedClient "msg_c2g_ping" [] =
      (schedulePing authedClient, [Event.write [("record", WireValue.str "msg_c2g_ping")]]) := by
  refine ⟨(Send_silent_unless_authenticated waitingClient "msg_c2g_ping" []).1
    (Or.inr (Or.inr (Or.inr rfl))), ?_⟩
  exact ((Send_silent_unless_authenticated authedClient "msg_c2g_ping" []).2 rfl rfl).1

/-- C7: `GetNew` returns the pre-increment counter exactly once per call:
over any serialized run of calls (the mutex serializes concurrent
callers), the issued IDs are the counter's start value offset by the call
position, hence pairwise distinct, strictly increasing in issuance order,
and gap-free. -/
theorem GetNew_monotone_gapfree (o : OperationID) (n i j : Nat) (hij : i < j) (hjn : j < n) :
    (issueIDs o n).get? i = some (o.ID + i) ∧
    (issueIDs o n).get? j = some (o.ID + j) ∧
    o.ID + (i : Int) < o.ID + (j : Int) ∧
    (o.ID + (j : Int)) - (o.ID + (i : Int)) = (j : Int) - (i : Int) := by
  refine ⟨issueIDs_get o n i (Nat.lt_trans hij hjn), issueIDs_get o n j hjn, ?_, by ring⟩
  have hij' : (i : Int) < (j : Int) := by exact_mod_cast hij
  omega

/-- Witness for C7 at the generator's initial state in the source
(`OpID = OperationID{ID: 57}`): three calls issue 57, then 59 at position
two. -/
theorem GetNew_monotone_gapfree_witness :
    (issueIDs { ID := 57 } 3).get? 0 = some 57 ∧
    (issueIDs { ID := 57 } 3).get? 2 = some 59 := by
  have h := GetNew_monotone_gapfree { ID := 57 } 3 0 2 (by decide) (by decide)
  constructor
  · have h1 := h.1
    norm_num at h1
    exact h1
  · have h2 := h.2.1
    norm_num at h2
    exact h2

/-- C2, counterexample: on the Authenticating-with-status-0 transition the
complete list of observable effects is two log lines, the state-hook call
for Authenticated, and the floodgates-open write — no subscription flush
is sent and no subscription manager is notified (the client holds no
subscription state at all), contradicting the claim that the desired
subscriptions are re-sent with fresh op_ids on this transition. -/
theorem authSuccess_emits_no_subscribe_flush :
    (onMessage authgClient (some authResultMsg)).2 =
      [Event.log, Event.log, Event.stateChange .authenticated none,
        Event.write [("record", WireValue.str "msg_c2g_open_floodgates")]] ∧
    ((onMessage authgClient (some authResultMsg)).2.all fun e =>
      match e with
      | .write m => decide (m.lookup "record" ≠ some (.str "msg_c2g_subscribe"))
      | _ => true) = true := by
  exact ⟨by decide, by decide⟩

/-- C2, as amended: when a `msg_g2c_result` record with numeric status 0
arrives while Authenticating over a live socket, the state becomes
Authenticated, the reconnect-schedule index resets to 0, and the
floodgates-open control record is written immediately (rearming the ping
and server-timeout timers); no subscription flush happens because the
client keeps no subscription bookkeeping. -/
theorem authSuccess_transition (c : WSClient) (msg : WireMsg)
    (h1 : c.state = .authenticating) (h2 : c.conn = true)
    (hr : msg.lookup "record" = some (.str "msg_g2c_result"))
    (hs : msg.lookup "status" = some (.num 0)) :
    (onMessage c (some msg)).1.state = .authenticated ∧
    (onMessage c (some msg)).1.connectRetryIntervalIndex = 0 ∧
    (onMessage c (some msg)).1.pingTimer = true ∧
    (onMessage c (some msg)).1.serverTimeoutTimer = true ∧
    (onMessage c (some msg)).2 =
      [Event.log, Event.log, Event.stateChange .authenticated none,
        Event.write [("record", WireValue.str "msg_c2g_open_floodgates")]] := by
  have hstate : (scheduleServerTimeout c).state = State.authenticating := h1
  simp [onMessage, hr, hs, hstate, scheduleServerTimeout, onAuthenticated, setState, reset,
    sendOpenFloodgates, send, schedulePing, sendRaw, mapSet, h1, h2]

/-- Witness for C2's amended claim at the concrete mid-handshake client
and the concrete status-0 result record. -/
theorem authSuccess_transition_witness :
    (onMessage authgClient (some authResultMsg)).1.state = .authenticated ∧
    (onMessage authgClient (some authResultMsg)).1.connectRetryIntervalIndex = 0 := by
  have h := authSuccess_transition authgClient authResultMsg (by decide) (by decide)
    (by decide) (by decide)
  exact ⟨h.1, h.2.1⟩

/-- C8, counterexample: a `msg_g2c_result` record arriving while
Authenticated is forwarded to the consumer's callback, contradicting the
claim that authentication result records are never forwarded in every
state. -/
theorem result_record_forwarded_when_authenticated :
    (onMessage authedClient (some authResultMsg)).2 = [Event.forward authResultMsg] := by
  decide

/-- C8, as amended: `msg_g2c_pong` records are never forwarded in any
state; while Authenticating nothing at all is forwarded — result records
are consumed by the handshake and every other record type is dropped with
a single log, leaving the client untouched apart from the server-timeout
rearm; in every other state, every record with a string `record` type
other than pong — result records included — is handed to the consumer in
a fresh goroutine, with no other effect than rearming the server-timeout
timer; malformed JSON, frames without a `record` field, and frames whose
`record` field is not a string are dropped with a single log, leaving the
socket and state untouched apart from the server-timeout rearm. -/
theorem dispatcher_classification (c : WSClient) (m : WireMsg) :
    (m.lookup "record" = some (.str "msg_g2c_pong") →
      forwards (onMessage c (some m)).2 = []) ∧
    (c.state = .authenticating → forwards (onMessage c (some m)).2 = []) ∧
    (∀ t, c.state = .authenticating → m.lookup "record" = some (.str t) →
      t ≠ "msg_g2c_result" →
      (onMessage c (some m)).1 = scheduleServerTimeout c ∧
      (onMessage c (some m)).2 = [Event.log]) ∧
    (∀ t, c.state ≠ .authenticating → m.lookup "record" = some (.str t) →
      t ≠ "msg_g2c_pong" →
      (onMessage c (some m)).1 = scheduleServerTimeout c ∧
      (onMessage c (some m)).2 = [Event.forward m]) ∧
    ((onMessage c none).1 = scheduleServerTimeout c ∧
      (onMessage c none).2 = [Event.log]) ∧
    (m.lookup "record" = none →
      (onMessage c (some m)).1 = scheduleServerTimeout c ∧
      (onMessage c (some m)).2 = [Event.log]) ∧
    (∀ v, m.lookup "record" = some v → (∀ s, v ≠ WireValue.str s) →
      (onMessage c (some m)).1 = scheduleServerTimeout c ∧
      (onMessage c (some m)).2 = [Event.log]) := by
  have hs : (scheduleServerTimeout c).state = c.state := rfl
  refine ⟨?_, ?_, ?_, ?_, ?_, ?_, ?_⟩
  · intro hr
    by_cases ha : c.state = State.authenticating
    · simp [onMessage, hr, hs, ha, forwards]
    · simp [onMessage, hr, hs, ha, forwards]
  · intro ha
    rcases hr : m.lookup "record" with - | v
    · simp [onMessage, hr, forwards]
    · rcases v with - | b | n | t
      · simp [onMessage, hr, forwards]
      · simp [onMessage, hr, forwards]
      · simp [onMessage, hr, forwards]
      · by_cases ht : t = "msg_g2c_result"
        · subst ht
          rcases hst : m.lookup "status" with - | sv
          · simp [onMessage, hr, hs, ha, hst, forwards]
          · rcases sv with - | b | n | z
            · simp [onMessage, hr, hs, ha, hst, forwards]
            · simp [onMessage, hr, hs, ha, hst, forwards]
            · rcases eq_or_ne n 0 with rfl | hn
              · simp [onMessage, scheduleServerTimeout, hr, hst, ha, forwards_log_cons,
                  forwards_append, forwards_onAuthenticated, forwards_sendOpenFloodgates]
              · simp [onMessage, hr, hs, ha, hst, hn, forwards]
            · simp [onMessage, hr, hs, ha, hst, forwards]
        · simp [onMessage, hr, hs, ha, ht, forwards]
  · intro t ha hr ht
    simp [onMessage, hr, hs, ha, ht]
  · intro t ha hr ht
    simp [onMessage, hr, hs, ha, ht, forwards]
  · exact ⟨rfl, rfl⟩
  · intro hr
    simp [onMessage, hr]
  · intro v hr hv
    rcases v with - | b | n | t
    · simp [onMessage, hr]
    · simp [onMessage, hr]
    · simp [onMessage, hr]
    · exact absurd rfl (hv t)

/-- Witness for C8's amended claim: while Authenticated, a result record
is forwarded untouched; with no parsed message, only a log is emitted and
only the server-timeout timer is rearmed; while Authenticating, a pong
record is dropped with a single log; a record whose `record` field is a
number is dropped with a single log. -/
theorem dispatcher_classification_witness :
    (onMessage authedClient (some authResultMsg)).1 = scheduleServerTimeout authedClient ∧
    (onMessage authedClient none).2 = [Event.log] ∧
    (onMessage authgClient (some pongMsg)).2 = [Event.log] ∧
    (onMessage authedClient (some numRecordMsg)).2 = [Event.log] := by
  have h1 := dispatcher_classification authedClient authResultMsg
  have h2 := dispatcher_classification authgClient pongMsg
  have h3 := dispatcher_classification authedClient numRecordMsg
  refine ⟨(h1.2.2.2.1 "msg_g2c_result" (by decide) (by decide) (by decide)).1,
    h1.2.2.2.2.1.2,
    (h2.2.2.1 "msg_g2c_pong" (by decide) (by decide) (by decide)).2,
    (h3.2.2.2.2.2.2 (.num 7) (by decide) ?_).2⟩
  intro s
  simp

/-- C6: a server-timeout callback whose goroutine was already dispatched
when `Close` ran is not cancelled by `Timer.Stop`; once it acquires the
lock after `Close` has returned, `onServerTimeout` runs `onDisconnected`,
which never checks for the Closed state — so the torn-down client is moved
back to Waiting and a reconnect timer is armed after `Close` returned,
contradicting the race-free-teardown claim.  The evaluation below runs
that late callback against the exact state `Close` leaves behind. -/
theorem inflight_timer_after_close_reconnects :
    onDisconnected (close authedClient).1 =
      some ({ state := .waiting, conn := false, connectRetryTimer := true,
              pingTimer := false, serverTimeoutTimer := false,
              connectRetryIntervalIndex := 1,
              reconnectIntervals := defaultReconnectIntervals },
            [Event.log, Event.log, Event.log, Event.stateChange .waiting (some 5)], 5) := by
  decide

set_option maxRecDepth 8000

/-- C4: marshalling the chat payload with chatId "140", message "hi",
to 0 and userId "12345" (inner JSON, base64, quoted) and unmarshalling the
produced string yields a field-equal payload, and a `StringOrInt`
transmitted as the JSON number 0 or the JSON string "0" decodes to the
same canonical value "0". -/
theorem chatMessagePayload_roundtrip :
    ChatMessagePayload.UnmarshalJSON (ChatMessagePayload.MarshalJSON samplePayload) =
      some (.ok samplePayload) ∧
    StringOrInt.UnmarshalJSON (.intVal 0) = .ok (gostr "0") ∧
    StringOrInt.UnmarshalJSON (.strVal (gostr "0")) = .ok (gostr "0") :=
  ⟨rfl, rfl, rfl⟩

/-- C10: `ChatMessagePayload.UnmarshalJSON` strips the first and last byte
without a length check: every input of at least 2 bytes produces a decoded
payload or an error, every shorter input hits the slice-bounds panic
(modelled as `none`) — in particular the single-byte JSON number 5 — so
decoding is not total at the public interface. -/
theorem chatUnmarshalJSON_not_total :
    (∀ data : GoStr, 2 ≤ data.length →
      (ChatMessagePayload.UnmarshalJSON data).isSome = true) ∧
    (∀ data : GoStr, data.length < 2 → ChatMessagePayload.UnmarshalJSON data = none) ∧
    ChatMessagePayload.UnmarshalJSON (gostr "5") = none := by
  refine ⟨?_, ?_, rfl⟩
  · intro data h
    have hcond : (0 : Int) ≤ 1 ∧ (1 : Int) ≤ (data.length : Int) - 1 ∧
        (data.length : Int) - 1 ≤ (data.length : Int) := by
      refine ⟨by norm_num, ?_, by omega⟩
      have : (2 : Int) ≤ (data.length : Int) := by exact_mod_cast h
      omega
    unfold ChatMessagePayload.UnmarshalJSON goSlice
    rw [if_pos hcond]
    rfl
  · intro data h
    have hcond : ¬((0 : Int) ≤ 1 ∧ (1 : Int) ≤ (data.length : Int) - 1 ∧
        (data.length : Int) - 1 ≤ (data.length : Int)) := by
      have : (data.length : Int) < 2 := by exact_mod_cast h
      omega
    unfold ChatMessagePayload.UnmarshalJSON goSlice
    rw [if_neg hcond]

/-- Witness for C10: the two-byte input "MA" decodes without panicking,
and the empty input panics. -/
theorem chatUnmarshalJSON_not_total_witness :
    (ChatMessagePayload.UnmarshalJSON (gostr "MA")).isSome = true ∧
    ChatMessagePayload.UnmarshalJSON [] = none :=
  ⟨chatUnmarshalJSON_not_total.1 (gostr "MA") (by decide),
    chatUnmarshalJSON_not_total.2.1 [] (by decide)⟩

end Giiny
